import Mathlib

/-
Verification development for the GEE tile proxy
(gee-proxy/server.py and gee-proxy/server_cloud.py).

Shallow embedding of:
  - the TTL result cache (_cache_key, _get_cached, _set_cached),
  - the per-endpoint handler flow (parameter checks, cache lookup,
    remote render call, cache store) for the endpoints the claims touch,
  - the multi-tile coverage resolver (images_coverage in server_cloud.py),
  - the land-cover heuristic classifier (classify_embedding).

Numeric values that are Python floats in the source are modelled as exact
rationals; Python round(x, n) (round half to even on the decimal value) is
modelled by pyRound below.  The remote raster compute collaborator
(Google Earth Engine) is external to the repository and appears only at
the interface the handlers cross: a call that renders an image either
yields a tile URL or raises, and a pipeline that contains
ee.Image.constant(null) (which the handlers build when a reduceRegion at
a data-free point or mask returns null values) is rejected by the
collaborator with an error.
-/

/-- Round half to even of an exact rational, as the Python builtin round
performs on the represented decimal value. -/
def roundHalfEven (q : ℚ) : ℤ :=
  if q - ⌊q⌋ < 1/2 then ⌊q⌋
  else if 1/2 < q - ⌊q⌋ then ⌊q⌋ + 1
  else if Even ⌊q⌋ then ⌊q⌋ else ⌊q⌋ + 1

/-- Python round(q, n) idealized on exact rationals. -/
def pyRound (q : ℚ) (n : ℕ) : ℚ := (roundHalfEven (q * 10 ^ n) : ℚ) / 10 ^ n

/- ===================== Cache layer =====================
   server.py lines 40-65 and server_cloud.py lines 58-81; the two files
   contain the same three functions.  The cache is a dict from cache key
   to (url, timestamp); insertion order is immaterial to every observable
   of the code (lookups are by key, the expiry sweep drops entries
   independently of position), so it is modelled as an association list
   with at most one binding per key. -/

/-- CACHE_TTL = 90 * 60 seconds. -/
def CACHE_TTL : ℚ := 90 * 60

/-- The _tile_cache dict: key, cached URL, creation timestamp. -/
abbrev TileCache (κ : Type) := List (κ × String × ℚ)

/-- Dict membership plus read: the stored (url, ts) for key k, if present. -/
def cache_find [DecidableEq κ] (c : TileCache κ) (k : κ) : Option (String × ℚ) :=
  (c.find? (fun e => decide (e.1 = k))).map (fun e => e.2)

/-- del _tile_cache[k]. -/
def cache_erase [DecidableEq κ] (c : TileCache κ) (k : κ) : TileCache κ :=
  c.filter (fun e => decide (e.1 ≠ k))

/-- _get_cached(key): a hit returns the url while now - ts < CACHE_TTL;
an expired entry is deleted and the lookup is a miss.  The clock
(time.time()) is passed explicitly.  Returns the result and the cache
after the call. -/
def get_cached [DecidableEq κ] (c : TileCache κ) (now : ℚ) (k : κ) :
    Option String × TileCache κ :=
  match cache_find c k with
  | some (url, ts) =>
      if now - ts < CACHE_TTL then (some url, c) else (none, cache_erase c k)
  | none => (none, c)

/-- _set_cached(key, url): store (url, now) under key, then sweep every
entry whose age strictly exceeds CACHE_TTL. -/
def set_cached [DecidableEq κ] (c : TileCache κ) (now : ℚ) (k : κ) (url : String) :
    TileCache κ :=
  (cache_erase c k ++ [(k, (url, now))]).filter
    (fun e => decide (¬ now - e.2.2 > CACHE_TTL))

/-- One cache operation, tagged with the clock value at which it runs. -/
inductive CacheOp (κ : Type) where
  | lookup (k : κ) (t : ℚ)
  | store (k : κ) (url : String) (t : ℚ)

/-- Effect of one operation on the cache. -/
def applyOp [DecidableEq κ] (c : TileCache κ) : CacheOp κ → TileCache κ
  | .lookup k t => (get_cached c t k).2
  | .store k url t => set_cached c t k url

/-- Run a sequence of cache operations from the empty cache started at
process start. -/
def runOps [DecidableEq κ] (ops : List (CacheOp κ)) : TileCache κ :=
  ops.foldl applyOp []

/- ===================== Cache keys =====================
   _cache_key(*args) = str(args).  The str image of the argument tuples
   used by the handlers is injective on the shapes that occur, so the key
   is modelled as the tuple itself: a list of tagged components. -/

/-- One component of a cache key tuple. -/
inductive KeyPart where
  | s (v : String)
  | q (v : ℚ)
  | i (v : ℤ)
  | tup (v : List String)
  deriving DecidableEq

/-- A cache key: the argument tuple passed to _cache_key. -/
abbrev CacheKeyT := List KeyPart

/-- Cache key of /api/tiles/embeddings:
('embeddings', year, tuple(bands), vmin, vmax). -/
def cache_key_embeddings (year : String) (bands : List String) (vmin vmax : ℚ) :
    CacheKeyT :=
  [.s "embeddings", .s year, .tup bands, .q vmin, .q vmax]

/-- Cache key of /api/tiles/change: ('change', year1, year2, tuple(bands)). -/
def cache_key_change (year1 year2 : String) (bands : List String) : CacheKeyT :=
  [.s "change", .s year1, .s year2, .tup bands]

/-- Cache key of /api/tiles/similarity:
('similarity', year, round(lat, 4), round(lng, 4), radius). -/
def cache_key_similarity (year : String) (lat lng radius : ℚ) : CacheKeyT :=
  [.s "similarity", .s year, .q (pyRound lat 4), .q (pyRound lng 4), .q radius]

/-- n_clusters = max(2, min(15, n_clusters)). -/
def clampClusters (n : ℤ) : ℤ := max 2 (min 15 n)

/-- Cache key of /api/tiles/clustering:
('clustering', year, round(lat, 2), round(lng, 2), zoom, n_clusters), with
n_clusters already clamped to [2, 15] before the key is built. -/
def cache_key_clustering (year : String) (lat lng : ℚ) (zoom : ℤ) (nClusters : ℤ) :
    CacheKeyT :=
  [.s "clustering", .s year, .q (pyRound lat 2), .q (pyRound lng 2),
   .i zoom, .i (clampClusters nClusters)]

/-- Cache key of /api/tiles/deforestation: ('deforestation', year, bbox). -/
def cache_key_deforestation (year bbox : String) : CacheKeyT :=
  [.s "deforestation", .s year, .s bbox]

/- ===================== Handler flow =====================
   Every tile endpoint follows the same shape: validate, look in the
   cache, on a miss call the remote collaborator (getMapId) and store the
   produced URL.  The Flask response is modelled by TileResp; a handler
   result also records whether the remote collaborator was invoked and
   the cache after the request. -/

/-- A tile endpoint JSON response: success carries the tile URL and the
cached flag; failure carries the HTTP status and the error string. -/
inductive TileResp where
  | ok (tileUrl : String) (cached : Bool)
  | err (status : ℕ) (msg : String)
  deriving DecidableEq

/-- Result of one handler invocation. -/
structure HandlerOut (κ : Type) where
  resp : TileResp
  remoteInvoked : Bool
  cache : TileCache κ

/-- Python truthiness of the `cached` variable in the handlers
(`if cached:`): an Optional string is truthy iff present and non-empty. -/
def truthyStr : Option String → Bool
  | none => false
  | some s => !s.isEmpty

/-- Outcome of a remote getMapId call, at the interface the handler
crosses: a tile URL, or the error the collaborator raises. -/
abbrev Remote := Except String String

/-- The error Earth Engine raises when a pipeline contains
ee.Image.constant built from null values (which the handlers construct
from a reduceRegion that found no data). -/
def nullConstantMsg : String := "Image.constant: Parameter value is required."

/-- Shared miss path: call the remote collaborator; on success store the
URL and answer uncached, on failure answer the 500 error envelope
(the source wraps each handler body in try/except returning
({error: str(e)}, 500)). -/
def missPath [DecidableEq κ] (c : TileCache κ) (now : ℚ) (k : κ) (remote : Remote) :
    HandlerOut κ :=
  match remote with
  | .ok url => ⟨.ok url false, true, set_cached c now k url⟩
  | .error e => ⟨.err 500 e, true, c⟩

/-- Shared cache-then-remote path of the handlers: `cached =
_get_cached(key); if cached: return cached hit` else miss path. -/
def cachedOrRemote [DecidableEq κ] (c : TileCache κ) (now : ℚ) (k : κ)
    (remote : Remote) : HandlerOut κ :=
  let r := get_cached c now k
  match r.1 with
  | some u => if u.isEmpty then missPath r.2 now k remote
              else ⟨.ok u true, false, r.2⟩
  | none => missPath r.2 now k remote

/-- /api/tiles/embeddings (server.py lines 91-120, identical in
server_cloud.py): with a band list whose length is not 3 the handler
answers 400 before touching cache or collaborator; otherwise the shared
cache-then-remote flow runs under the embeddings cache key.  The band
list is the comma-split of the bands query parameter. -/
def tiles_embeddings (c : TileCache CacheKeyT) (now : ℚ)
    (year : String) (bands : List String) (vmin vmax : ℚ) (remote : Remote) :
    HandlerOut CacheKeyT :=
  if bands.length ≠ 3 then ⟨.err 400 "Exactly 3 bands required for RGB", false, c⟩
  else cachedOrRemote c now (cache_key_embeddings year bands vmin vmax) remote

/-- /api/tiles/change (server.py lines 250-290, identical in
server_cloud.py): same 3-band guard, then the shared flow under the
change cache key. -/
def tiles_change (c : TileCache CacheKeyT) (now : ℚ)
    (year1 year2 : String) (bands : List String) (remote : Remote) :
    HandlerOut CacheKeyT :=
  if bands.length ≠ 3 then ⟨.err 400 "Exactly 3 bands required", false, c⟩
  else cachedOrRemote c now (cache_key_change year1 year2 bands) remote

/-- /api/tiles/similarity (server.py lines 293-347, server_cloud.py lines
931-973): no validation of the reference point is performed; the handler
builds the cosine-similarity pipeline around ee.Image.constant of the
64 values read at the reference point and calls getMapId.  refData is
the per-band reduceRegion result at the point (none = no data there); a
none reference forces the collaborator to reject the null-constant
pipeline, otherwise the call behaves as the free remote outcome. -/
def tiles_similarity (c : TileCache CacheKeyT) (now : ℚ) (year : String)
    (lat lng radius : ℚ) (refData : Option (List ℚ)) (remote : Remote) :
    HandlerOut CacheKeyT :=
  let renderOutcome : Remote :=
    match refData with
    | none => .error nullConstantMsg
    | some _ => remote
  cachedOrRemote c now (cache_key_similarity year lat lng radius) renderOutcome

/-- /api/tiles/deforestation (server.py lines 456-538): the two anchor
zonal means (pristine and deforested masks reduced over the region) are
each none when the mask yields zero sampled pixels; the handler never
checks them, builds constants from them and calls getMapId, so an empty
anchor forces the null-constant rejection at the collaborator. -/
def tiles_deforestation (c : TileCache CacheKeyT) (now : ℚ) (year bbox : String)
    (meanPristine meanDeforested : Option (List ℚ)) (remote : Remote) :
    HandlerOut CacheKeyT :=
  let renderOutcome : Remote :=
    match meanPristine, meanDeforested with
    | some _, some _ => remote
    | _, _ => .error nullConstantMsg
  cachedOrRemote c now (cache_key_deforestation year bbox) renderOutcome

/- ===================== Land-cover heuristic classifier =====================
   classify_embedding, server.py lines 402-453 (server_cloud.py lines
   1009-1044 is the same function without the unused a02 binding). -/

/-- mean_val = sum(embedding) / len(embedding). -/
def meanVal (v : List ℚ) : ℚ := v.sum / (v.length : ℚ)

/-- The radicand of std_val: sum((x - mean)^2 for x in embedding) / len. -/
def varVal (v : List ℚ) : ℚ :=
  ((v.map (fun x => (x - meanVal v) ^ 2)).sum) / (v.length : ℚ)

/-- std_val = math.sqrt(varVal). -/
noncomputable def std_val (v : List ℚ) : ℝ := Real.sqrt (varVal v)

/-- Executable form of the source comparison std_val < c for a threshold
c > 0: since std_val and c are nonnegative, math.sqrt(varVal) < c iff
varVal < c^2 (see std_lt_iff below). -/
def stdLtB (v : List ℚ) (c : ℚ) : Bool := decide (varVal v < c ^ 2)

/-- Executable form of the source comparison std_val > c, for c > 0. -/
def stdGtB (v : List ℚ) (c : ℚ) : Bool := decide (c ^ 2 < varVal v)

/-- One candidate label with its fixed confidence weight. -/
structure Category where
  label : String
  confidence : ℚ
  deriving DecidableEq

/-- The stats block of the classifier output.  The reported std is real
valued because of the square root; it is kept outside this structure as
stat_std below, everything else is exact. -/
structure ClassifyStats where
  mean : ℚ
  max : ℚ
  min : ℚ
  positiveAxes : ℕ
  negativeAxes : ℕ
  deriving DecidableEq

/-- The classifier output: top label, its confidence, up to two
alternatives (categories[1:3]), and the stats block. -/
structure ClassifyOut where
  type : String
  confidence : ℚ
  alternatives : List Category
  stats : ClassifyStats
  deriving DecidableEq

/-- classify_embedding: ordered threshold rules, each contributing a
candidate label at a fixed weight; a fallback Mixed/Unknown entry only
when no rule fired; candidates sorted by descending confidence
(sort(key=-confidence), stable). -/
def classify_embedding (v : List ℚ) : ClassifyOut :=
  let mean_val := meanVal v
  let max_val := (v.max?).getD 0
  let min_val := (v.min?).getD 0
  let pos_count := (v.filter (fun x => decide (0 < x))).length
  let neg_count := (v.filter (fun x => decide (x < 0))).length
  let a00 := v.getD 0 0
  let a01 := v.getD 1 0
  let cats : List Category :=
    (if stdLtB v (5/100) then [⟨"Water/Ocean", 7/10⟩] else []) ++
    (if 1/10 < a00 ∧ 40 < pos_count then [⟨"Vegetation/Forest", 6/10⟩] else []) ++
    (if mean_val < -(5/100) then [⟨"Urban/Built-up", 5/10⟩] else []) ++
    (if stdGtB v (15/100) ∧ 0 < a01 then [⟨"Cropland", 5/10⟩] else []) ++
    (if 0 < mean_val ∧ stdLtB v (1/10) then [⟨"Desert/Barren", 4/10⟩] else [])
  let cats := if cats.isEmpty then [⟨"Mixed/Unknown", 3/10⟩] else cats
  let sorted := List.insertionSort (fun a b => b.confidence ≤ a.confidence) cats
  { type := (sorted.headD ⟨"", 0⟩).label
  , confidence := (sorted.headD ⟨"", 0⟩).confidence
  , alternatives := (sorted.drop 1).take 2
  , stats := { mean := pyRound mean_val 4, max := pyRound max_val 4
             , min := pyRound min_val 4, positiveAxes := pos_count
             , negativeAxes := neg_count } }

/-- Round half to even on a real, for the reported std statistic. -/
noncomputable def roundHalfEvenR (x : ℝ) : ℤ :=
  if x - ⌊x⌋ < 1/2 then ⌊x⌋
  else if 1/2 < x - ⌊x⌋ then ⌊x⌋ + 1
  else if Even ⌊x⌋ then ⌊x⌋ else ⌊x⌋ + 1

/-- stats.std as reported: round(math.sqrt(varVal), 4). -/
noncomputable def stat_std (v : List ℚ) : ℝ :=
  (roundHalfEvenR (std_val v * 10 ^ 4) : ℝ) / 10 ^ 4

/-- The all-zero 64-component embedding vector. -/
def zeroEmbedding : List ℚ := List.replicate 64 0

/- ===================== Multi-tile coverage resolver =====================
   images_coverage, server_cloud.py lines 281-426.  The Earth Engine
   query (filterDate, filterBounds, Filter.lte(CLOUDY_PIXEL_PERCENTAGE,
   max_cloud)) runs at the collaborator; its input is modelled as the
   list of candidate images intersecting the bbox and date range, and
   the cloud filter is applied to it here, exactly as the lte filter the
   handler attaches to the query.  Everything after getInfo() is local
   Python translated below. -/

/-- One candidate image as the coverage query describes it: system:index,
formatted date, MGRS_TILE property (None when absent) and
CLOUDY_PIXEL_PERCENTAGE. -/
structure Candidate where
  id : String
  date : String
  mgrsTile : Option String
  cloudCover : ℚ
  deriving DecidableEq

/-- Python truthiness of a tile id (`if tile_id:`): present and
non-empty. -/
def truthyTile : Option String → Bool
  | none => false
  | some s => !s.isEmpty

/-- The cloud-filtered candidate set: the lte(CLOUDY_PIXEL_PERCENTAGE,
max_cloud) filter of the query. -/
def cloudFiltered (cands : List Candidate) (maxCloud : ℚ) : List Candidate :=
  cands.filter (fun f => decide (f.cloudCover ≤ maxCloud))

/-- The per-image record the handler keeps in images_by_date: id, tileId,
cloud cover rounded to one decimal. -/
structure Img where
  id : String
  tileId : Option String
  cloudCover : ℚ
  deriving DecidableEq

/-- The record appended to images_by_date[date]. -/
def toImg (f : Candidate) : Img := ⟨f.id, f.mgrsTile, pyRound f.cloudCover 1⟩

/-- all_tiles: the distinct truthy MGRS tiles of the filtered candidates
(a set in the source; order immaterial, it is sorted before use). -/
def observedTiles (fs : List Candidate) : List String :=
  (fs.filterMap (fun f => if truthyTile f.mgrsTile then f.mgrsTile else none)).dedup

/-- required_tiles = sorted(list(all_tiles)). -/
def required_tiles (fs : List Candidate) : List String :=
  List.insertionSort (· ≤ ·) (observedTiles fs)

/-- The distinct keys of images_by_date. -/
def datesOf (fs : List Candidate) : List String := (fs.map (fun f => f.date)).dedup

/-- images_by_date[d], in candidate order. -/
def imagesOn (fs : List Candidate) (d : String) : List Img :=
  (fs.filter (fun f => decide (f.date = d))).map toImg

/-- date_tiles: the truthy tile ids observed on date d (a set in the
source; kept as a list, only membership is used). -/
def tilesOn (fs : List Candidate) (d : String) : List String :=
  (imagesOn fs d).filterMap (fun i => if truthyTile i.tileId then i.tileId else none)

/-- date_tiles >= set(required_tiles). -/
def supersetB (req tiles : List String) : Bool := req.all (fun t => tiles.contains t)

/-- Completeness of date d: every required tile was observed on d. -/
def isCompleteOn (fs : List Candidate) (d : String) : Bool :=
  supersetB (required_tiles fs) (tilesOn fs d)

/-- One step of the best_per_tile loop: skip a falsy tile id; first image
of a tile enters the dict; a strictly lower cloud cover replaces the
kept image (ties keep the first seen).  The dict update is modelled as
erase plus append; binding position is immaterial downstream (the
result is sorted by key, and the average sums over all values). -/
def updBest (acc : List (String × Img)) (img : Img) : List (String × Img) :=
  match img.tileId with
  | none => acc
  | some t =>
    if t.isEmpty then acc
    else
      match (acc.find? (fun e => decide (e.1 = t))).map (fun e => e.2) with
      | none => acc ++ [(t, img)]
      | some prev =>
          if img.cloudCover < prev.cloudCover then
            acc.filter (fun e => decide (e.1 ≠ t)) ++ [(t, img)]
          else acc

/-- best_per_tile for one date. -/
def best_per_tile (imgs : List Img) : List (String × Img) :=
  imgs.foldl updBest []

/-- One selected tile of a complete date, as returned in the tiles
array. -/
structure TileSel where
  tileId : String
  imageId : String
  cloudCover : ℚ
  deriving DecidableEq

/-- One element of the returned dates array. -/
structure DateEntry where
  date : String
  avgCloudCover : ℚ
  tiles : List TileSel
  deriving DecidableEq

/-- The entry built for a complete date: avg_cloud = mean cloud cover of
the selected images rounded to one decimal, tiles sorted by tile id. -/
def date_entry (fs : List Candidate) (d : String) : DateEntry :=
  let best := best_per_tile (imagesOn fs d)
  let avg := (best.map (fun p => p.2.cloudCover)).sum / (best.length : ℚ)
  { date := d
  , avgCloudCover := pyRound avg 1
  , tiles := (List.insertionSort (fun a b : String × Img => a.1 ≤ b.1) best).map
      (fun p => ⟨p.1, p.2.id, p.2.cloudCover⟩) }

instance : IsTotal (String × Img) (fun a b => a.1 ≤ b.1) :=
  ⟨fun a b => le_total a.1 b.1⟩

instance : IsTrans (String × Img) (fun a b => a.1 ≤ b.1) :=
  ⟨fun _ _ _ h₁ h₂ => le_trans h₁ h₂⟩

/-- The complete dates in chronological (string-sorted ISO date) order,
before the limit truncation. -/
def complete_dates_list (fs : List Candidate) : List String :=
  (List.insertionSort (· ≤ ·) (datesOf fs)).filter (isCompleteOn fs)

/-- The success payload of /api/images/coverage (echo fields such as
dataset and bbox are omitted). -/
structure CoverageOk where
  requiredTiles : List String
  completeDates : ℕ
  dates : List DateEntry
  message : Option String
  deriving DecidableEq

/-- The /api/images/coverage response. -/
inductive CoverageResp where
  | ok (r : CoverageOk)
  | err (status : ℕ) (msg : String)
  deriving DecidableEq

/-- images_coverage after parameter validation: filter by cloud; an empty
filtered set yields the explicit 200 empty result with the
no-matching-imagery message; otherwise group by date, keep complete
dates in sorted order, build their entries, truncate to limit. -/
def images_coverage (cands : List Candidate) (maxCloud : ℚ) (limit : ℕ) :
    CoverageResp :=
  let fs := cloudFiltered cands maxCloud
  if fs.isEmpty then
    .ok ⟨[], 0, [], some "No images found matching criteria"⟩
  else
    let entries := ((complete_dates_list fs).map (date_entry fs)).take limit
    .ok ⟨required_tiles fs, entries.length, entries, none⟩

/-- One comparison step of the selection loop. -/
def pickLower (b j : Img) : Img := if j.cloudCover < b.cloudCover then j else b

/-- The image the loop keeps for a tile, given the list of that tile's
images in first-seen order: the leftmost one attaining the minimal cloud
cover. -/
def selectBest : List Img → Option Img
  | [] => none
  | i :: is => some (is.foldl pickLower i)

/-- The images of date d carrying tile id t, in first-seen order. -/
def sameTile (imgs : List Img) (t : String) : List Img :=
  imgs.filter (fun i => decide (i.tileId = some t))

/-- Optional-accumulator form of one selection step: the first image of a
tile enters, later ones replace it only on strictly lower cloud cover. -/
def pickMinOpt (o : Option Img) (i : Img) : Option Img :=
  match o with
  | none => some i
  | some p => some (pickLower p i)

/-- The dates array of a coverage response (empty on the error path). -/
def coverageDates : CoverageResp → List DateEntry
  | .ok r => r.dates
  | .err _ _ => []

/-- The requiredTiles array of a coverage response. -/
def coverageRequired : CoverageResp → List String
  | .ok r => r.requiredTiles
  | .err _ _ => []

/-- The synthetic coverage instance of the spec: tiles A and B, date
2023-01-01 has both at low cloud, date 2023-01-02 has only A. -/
def synthCands : List Candidate :=
  [⟨"ia1", "2023-01-01", some "A", 5⟩, ⟨"ib1", "2023-01-01", some "B", 10⟩,
   ⟨"ia2", "2023-01-02", some "A", 5⟩]

/-- A single-tile instance with two complete dates, used against the
caller-supplied limit: with limit 1 only the first complete date is
returned. -/
def limitCands : List Candidate :=
  [⟨"i1", "2023-01-01", some "A", 5⟩, ⟨"i2", "2023-01-02", some "A", 5⟩]

/-- A three-tile single-date instance whose exact mean cloud cover 4/3
is not representable at one decimal, exposing the rounding of
avgCloudCover. -/
def avgCands : List Candidate :=
  [⟨"ia", "2023-01-01", some "A", 1⟩, ⟨"ib", "2023-01-01", some "B", 1⟩,
   ⟨"ic", "2023-01-01", some "C", 2⟩]

/-- HTTP status of a tile endpoint response (Flask default 200 on
success). -/
def respStatus : TileResp → ℕ
  | .ok _ _ => 200
  | .err s _ => s

/- ===================== Theorems ===================== -/

/-- C10: the similarity cache key is built from round(lat, 4) and
round(lng, 4) together with year and radius, and the clustering cache
key from round(lat, 2), round(lng, 2), year, zoom and the cluster count
clamped to [2, 15]; requests agreeing on those normalized components
share one cache key, hence one cache entry. -/
theorem c10_cache_key_normalization
    (year ycl : String) (lat₁ lng₁ lat₂ lng₂ radius clat₁ clng₁ clat₂ clng₂ : ℚ)
    (zoom n₁ n₂ : ℤ)
    (hlat : pyRound lat₁ 4 = pyRound lat₂ 4) (hlng : pyRound lng₁ 4 = pyRound lng₂ 4)
    (hclat : pyRound clat₁ 2 = pyRound clat₂ 2) (hclng : pyRound clng₁ 2 = pyRound clng₂ 2)
    (hn : clampClusters n₁ = clampClusters n₂) :
    cache_key_similarity year lat₁ lng₁ radius = cache_key_similarity year lat₂ lng₂ radius ∧
    (2 ≤ clampClusters n₁ ∧ clampClusters n₁ ≤ 15) ∧
    cache_key_clustering ycl clat₁ clng₁ zoom n₁ = cache_key_clustering ycl clat₂ clng₂ zoom n₂ ∧
    (∀ (c : TileCache CacheKeyT) (now : ℚ),
      get_cached c now (cache_key_similarity year lat₁ lng₁ radius) =
        get_cached c now (cache_key_similarity year lat₂ lng₂ radius)) := by
  have hsim : cache_key_similarity year lat₁ lng₁ radius =
      cache_key_similarity year lat₂ lng₂ radius := by
    simp [cache_key_similarity, hlat, hlng]
  refine ⟨hsim, ⟨?_, ?_⟩, ?_, fun c now => by rw [hsim]⟩
  · simp [clampClusters]
  · simp only [clampClusters]
    omega
  · simp [cache_key_clustering, hclat, hclng, hn]

/-- C10 witness: two similarity requests at coordinates differing in the
fifth decimal, and two clustering requests at coordinates differing in
the third decimal whose requested 20 and 17 clusters both clamp to 15,
share their cache keys. -/
theorem c10_cache_key_normalization_witness :
    pyRound (100001/100000) 4 = pyRound (100002/100000) 4 ∧
    clampClusters 20 = clampClusters 17 ∧
    cache_key_similarity "2023" (100001/100000) 2 500000 =
      cache_key_similarity "2023" (100002/100000) 2 500000 := by
  have h4 : pyRound (100001/100000 : ℚ) 4 = pyRound (100002/100000) 4 := by
    norm_num [pyRound, roundHalfEven]
  have hn : clampClusters 20 = clampClusters 17 := by decide
  exact ⟨h4, hn,
    (c10_cache_key_normalization "2023" "y" (100001/100000) 2 (100002/100000) 2 500000
      1 1 1 1 3 20 17 h4 rfl rfl rfl hn).1⟩

/-- C7: a coverage request whose cloud-filtered candidate set is empty
yields the 200 success payload with empty requiredTiles, an empty dates
list, and the explicit no-matching-imagery message, never an error
response. -/
theorem c7_coverage_empty_success (cands : List Candidate) (maxCloud : ℚ) (limit : ℕ)
    (h : cloudFiltered cands maxCloud = []) :
    images_coverage cands maxCloud limit =
      .ok ⟨[], 0, [], some "No images found matching criteria"⟩ := by
  simp [images_coverage, h]

/-- C7 witness: one candidate at 50 percent cloud against maxCloud 30
leaves no filtered candidate; the resolver answers the explicit empty
success result. -/
theorem c7_coverage_empty_success_witness :
    images_coverage [⟨"i1", "2023-01-01", some "T1", 50⟩] 30 5 =
      .ok ⟨[], 0, [], some "No images found matching criteria"⟩ :=
  c7_coverage_empty_success _ _ _ (by norm_num [cloudFiltered, List.filter])

/-- C5: an RGB-composite request (embedding visualization or change
detection) whose band list does not have exactly 3 entries answers the
400 band-count error, with the remote collaborator not invoked and the
cache untouched. -/
theorem c5_band_count_guard (c₁ c₂ : TileCache CacheKeyT) (now₁ now₂ : ℚ)
    (year year1 year2 : String) (bands₁ bands₂ : List String) (vmin vmax : ℚ)
    (r₁ r₂ : Remote)
    (h₁ : bands₁.length ≠ 3) (h₂ : bands₂.length ≠ 3) :
    tiles_embeddings c₁ now₁ year bands₁ vmin vmax r₁ =
      ⟨.err 400 "Exactly 3 bands required for RGB", false, c₁⟩ ∧
    tiles_change c₂ now₂ year1 year2 bands₂ r₂ =
      ⟨.err 400 "Exactly 3 bands required", false, c₂⟩ := by
  constructor
  · simp [tiles_embeddings, h₁]
  · simp [tiles_change, h₂]

/-- C5 witness: a two-band request is refused with the 400 band-count
error by both RGB endpoints, before any remote call. -/
theorem c5_band_count_guard_witness :
    tiles_embeddings [] 0 "2023" ["A01", "A16"] (-(3/10)) (3/10) (.ok "u") =
      ⟨.err 400 "Exactly 3 bands required for RGB", false, []⟩ ∧
    tiles_change [] 0 "2020" "2023" ["A01", "A16"] (.ok "u") =
      ⟨.err 400 "Exactly 3 bands required", false, []⟩ :=
  c5_band_count_guard [] [] 0 0 "2023" "2020" "2023" ["A01", "A16"] ["A01", "A16"]
    (-(3/10)) (3/10) (.ok "u") (.ok "u") (by simp) (by simp)

/-- C3 counterexample: at a reference point with no embedding data (all
reduceRegion values null) the similarity handler does not fail with the
NoDataAtPoint error (the 404 with the no-data message that /api/info
returns): it pushes the null-constant pipeline to the collaborator and
surfaces the rejection as the generic 500 envelope. -/
theorem c3_counterexample :
    (tiles_similarity [] 0 "2023" 42 (-(935/10)) 500000 none (.ok "u")).resp =
      .err 500 nullConstantMsg ∧
    respStatus (tiles_similarity [] 0 "2023" 42 (-(935/10)) 500000 none (.ok "u")).resp ≠ 404 ∧
    (tiles_similarity [] 0 "2023" 42 (-(935/10)) 500000 none (.ok "u")).resp ≠
      .err 404 "No embedding data at this location" := by
  refine ⟨?_, ?_, ?_⟩ <;>
    simp [tiles_similarity, cachedOrRemote, get_cached, cache_find, missPath, respStatus]

/-- C3 (amended): a similarity request whose reference point has no
embedding data and whose key is not in the cache fails with the generic
500 error carrying the collaborator null-constant message (never the 404
NoDataAtPoint error), the response carries no rendered similarity layer,
and nothing is stored in the cache. -/
theorem c3_similarity_no_data (c : TileCache CacheKeyT) (now : ℚ) (year : String)
    (lat lng radius : ℚ) (remote : Remote)
    (hmiss : (get_cached c now (cache_key_similarity year lat lng radius)).1 = none) :
    tiles_similarity c now year lat lng radius none remote =
      ⟨.err 500 nullConstantMsg, true,
        (get_cached c now (cache_key_similarity year lat lng radius)).2⟩ ∧
    ∀ url cached, (tiles_similarity c now year lat lng radius none remote).resp ≠
      .ok url cached := by
  have h : tiles_similarity c now year lat lng radius none remote =
      ⟨.err 500 nullConstantMsg, true,
        (get_cached c now (cache_key_similarity year lat lng radius)).2⟩ := by
    simp only [tiles_similarity, cachedOrRemote, hmiss]
    rfl
  exact ⟨h, fun url cached => by rw [h]; simp⟩

/-- C3 witness: the amended statement evaluated on an empty cache at a
no-data point. -/
theorem c3_similarity_no_data_witness :
    tiles_similarity [] 0 "2023" 42 (-(935/10)) 500000 none (.error "boom") =
      ⟨.err 500 nullConstantMsg, true, []⟩ :=
  (c3_similarity_no_data [] 0 "2023" 42 (-(935/10)) 500000 (.error "boom")
    (by simp [get_cached, cache_find])).1

/-- C4: a degradation-projection request for which either anchor mask
yields zero sampled pixels (its zonal mean reduceRegion is null on every
band) fails with an error response — the 500 envelope carrying the
collaborator rejection of the null-constant anchor, the status the spec
assigns InsufficientAnchorSamples — and never produces a tile URL
(assuming the key is not already cached from an earlier successful
request). -/
theorem c4_deforestation_insufficient_anchors (c : TileCache CacheKeyT) (now : ℚ)
    (year bbox : String) (mp md : Option (List ℚ)) (remote : Remote)
    (hmiss : (get_cached c now (cache_key_deforestation year bbox)).1 = none)
    (hempty : mp = none ∨ md = none) :
    tiles_deforestation c now year bbox mp md remote =
      ⟨.err 500 nullConstantMsg, true,
        (get_cached c now (cache_key_deforestation year bbox)).2⟩ ∧
    ∀ url cached, (tiles_deforestation c now year bbox mp md remote).resp ≠
      .ok url cached := by
  have hout : (match mp, md with
      | some _, some _ => remote
      | _, _ => Except.error nullConstantMsg) = Except.error nullConstantMsg := by
    rcases hempty with h | h
    · subst h; cases md <;> rfl
    · subst h; cases mp <;> rfl
  have h : tiles_deforestation c now year bbox mp md remote =
      ⟨.err 500 nullConstantMsg, true,
        (get_cached c now (cache_key_deforestation year bbox)).2⟩ := by
    simp only [tiles_deforestation, hout, cachedOrRemote, hmiss]
    rfl
  exact ⟨h, fun url cached => by rw [h]; simp⟩

/-- C4 witness: an empty pristine anchor over an empty cache fails with
the 500 error and no tile URL. -/
theorem c4_deforestation_insufficient_anchors_witness :
    tiles_deforestation [] 0 "2023" "-63.5,-11.0,-62.5,-10.0" none (some []) (.ok "u") =
      ⟨.err 500 nullConstantMsg, true, []⟩ :=
  (c4_deforestation_insufficient_anchors [] 0 "2023" "-63.5,-11.0,-62.5,-10.0"
    none (some []) (.ok "u") (by simp [get_cached, cache_find]) (.inl rfl)).1

theorem cache_find_erase {κ : Type} [DecidableEq κ] (c : TileCache κ) (k : κ) :
    cache_find (cache_erase c k) k = none := by
  have h : (cache_erase c k).find? (fun e => decide (e.1 = k)) = none := by
    rw [List.find?_eq_none]
    intro e he
    have h := List.of_mem_filter he
    simp only [decide_eq_true_eq] at h
    simp [h]
  simp [cache_find, h]

theorem mem_cache_erase {κ : Type} [DecidableEq κ] {c : TileCache κ} {k : κ}
    {e : κ × String × ℚ} (he : e ∈ cache_erase c k) : e ∈ c :=
  List.mem_of_mem_filter he

theorem mem_set_cached {κ : Type} [DecidableEq κ] {c : TileCache κ} {now : ℚ} {k : κ}
    {url : String} {e : κ × String × ℚ} (he : e ∈ set_cached c now k url) :
    e ∈ c ∨ e = (k, (url, now)) := by
  unfold set_cached at he
  have h1 := List.mem_of_mem_filter he
  rcases List.mem_append.1 h1 with h | h
  · exact .inl (List.mem_of_mem_filter h)
  · simp at h
    exact .inr h

theorem set_cached_fresh {κ : Type} [DecidableEq κ] (c : TileCache κ) (now : ℚ)
    (k : κ) (url : String) :
    ∀ e ∈ set_cached c now k url, ¬ now - e.2.2 > CACHE_TTL := by
  intro e he
  have h := List.of_mem_filter he
  simpa using h

theorem cache_find_some_mem {κ : Type} [DecidableEq κ] {c : TileCache κ} {k : κ}
    {u : String} {ts : ℚ} (h : cache_find c k = some (u, ts)) : (k, (u, ts)) ∈ c := by
  unfold cache_find at h
  cases hf : c.find? (fun e => decide (e.1 = k)) with
  | none => rw [hf] at h; simp at h
  | some e =>
      rw [hf] at h
      simp only [Option.map_some'] at h
      have hk : e.1 = k := by
        have hp := List.find?_some hf
        simpa using hp
      have hm := List.mem_of_find?_eq_some hf
      have he : e = (k, (u, ts)) := by
        obtain ⟨e1, e2⟩ := e
        simp only at hk
        have he2 : e2 = (u, ts) := by simpa using h
        subst hk
        subst he2
        rfl
      rwa [he] at hm

theorem get_cached_some {κ : Type} [DecidableEq κ] {c : TileCache κ} {now : ℚ} {k : κ}
    {u : String} (h : (get_cached c now k).1 = some u) :
    ∃ ts, (k, (u, ts)) ∈ c ∧ now - ts < CACHE_TTL := by
  unfold get_cached at h
  cases hf : cache_find c k with
  | none => rw [hf] at h; simp at h
  | some p =>
      obtain ⟨u', ts⟩ := p
      rw [hf] at h
      dsimp only at h
      by_cases hfresh : now - ts < CACHE_TTL
      · rw [if_pos hfresh] at h
        dsimp only at h
        obtain rfl : u' = u := by simpa using h
        exact ⟨ts, cache_find_some_mem hf, hfresh⟩
      · rw [if_neg hfresh] at h
        simp at h

theorem get_cached_snd_sub {κ : Type} [DecidableEq κ] (c : TileCache κ) (t : ℚ)
    (k : κ) : ∀ e ∈ (get_cached c t k).2, e ∈ c := by
  intro e he
  unfold get_cached at he
  cases hf : cache_find c k with
  | none => rw [hf] at he; exact he
  | some p =>
      obtain ⟨u, ts⟩ := p
      rw [hf] at he
      dsimp only at he
      by_cases hfr : t - ts < CACHE_TTL
      · rw [if_pos hfr] at he; exact he
      · rw [if_neg hfr] at he; exact mem_cache_erase he

theorem foldl_applyOp_mem {κ : Type} [DecidableEq κ] (ops : List (CacheOp κ)) :
    ∀ (c : TileCache κ) (e : κ × String × ℚ), e ∈ ops.foldl applyOp c →
      e ∈ c ∨ CacheOp.store e.1 e.2.1 e.2.2 ∈ ops := by
  induction ops with
  | nil => intro c e he; exact .inl he
  | cons op rest ih =>
      intro c e he
      rw [List.foldl_cons] at he
      rcases ih (applyOp c op) e he with h | h
      · cases op with
        | lookup k t =>
            exact .inl (get_cached_snd_sub c t k e h)
        | store k url t =>
            rcases mem_set_cached h with h₂ | h₂
            · exact .inl h₂
            · right
              subst h₂
              exact List.mem_cons_self _ _
      · exact .inr (List.mem_cons_of_mem _ h)

/-- C2: the cache never serves an entry at or past the 90-minute TTL —
(i) a lookup of an entry whose age is at least CACHE_TTL is a miss and
removes the entry, (ii) every store drops all entries whose age exceeds
CACHE_TTL, and (iii) over any sequence of lookups and stores from the
empty cache, a lookup that returns a result finds one that some store
put there strictly less than CACHE_TTL before the lookup clock. -/
theorem c2_cache_ttl_invariant {κ : Type} [DecidableEq κ]
    (c₁ : TileCache κ) (now₁ : ℚ) (k₁ : κ) (u₁ : String) (ts₁ : ℚ)
    (c₂ : TileCache κ) (now₂ : ℚ) (k₂ : κ) (u₂ : String)
    (ops : List (CacheOp κ)) (t₃ : ℚ) (k₃ : κ) (u₃ : String)
    (hfind : cache_find c₁ k₁ = some (u₁, ts₁)) (hold : CACHE_TTL ≤ now₁ - ts₁)
    (hlook : (get_cached (runOps ops) t₃ k₃).1 = some u₃) :
    (get_cached c₁ now₁ k₁ = (none, cache_erase c₁ k₁) ∧
      cache_find (cache_erase c₁ k₁) k₁ = none) ∧
    (∀ e ∈ set_cached c₂ now₂ k₂ u₂, ¬ now₂ - e.2.2 > CACHE_TTL) ∧
    (∃ ts₃, CacheOp.store k₃ u₃ ts₃ ∈ ops ∧ t₃ - ts₃ < CACHE_TTL) := by
  refine ⟨⟨?_, cache_find_erase c₁ k₁⟩, set_cached_fresh c₂ now₂ k₂ u₂, ?_⟩
  · unfold get_cached
    rw [hfind]
    dsimp only
    rw [if_neg (not_lt.2 hold)]
  · obtain ⟨ts, hmem, hfr⟩ := get_cached_some hlook
    unfold runOps at hmem
    rcases foldl_applyOp_mem ops [] _ hmem with h | h
    · simp at h
    · exact ⟨ts, h, hfr⟩

/-- C2 witness: an entry stored at clock 0 and looked up at clock 5400
(exactly the TTL) misses and is removed; a store at clock 10 leaves no
entry older than the TTL; a store of k3 at clock 10 followed by a lookup
at clock 11 finds the entry stored 1 second earlier. -/
theorem c2_cache_ttl_invariant_witness :
    (get_cached [("k", ("u", 0))] 5400 "k" = (none, cache_erase [("k", ("u", 0))] "k") ∧
      cache_find (cache_erase [("k", ("u", (0 : ℚ)))] "k") "k" = none) ∧
    (∀ e ∈ set_cached ([] : TileCache String) 10 "k2" "u2",
      ¬ (10 : ℚ) - e.2.2 > CACHE_TTL) ∧
    (∃ ts₃, CacheOp.store "k3" "u3" ts₃ ∈ [CacheOp.store "k3" "u3" (10 : ℚ)] ∧
      (11 : ℚ) - ts₃ < CACHE_TTL) :=
  c2_cache_ttl_invariant [("k", ("u", 0))] 5400 "k" "u" 0 [] 10 "k2" "u2"
    [CacheOp.store "k3" "u3" 10] 11 "k3" "u3"
    (by simp [cache_find])
    (by norm_num [CACHE_TTL])
    (by norm_num [runOps, applyOp, set_cached, cache_erase, get_cached, cache_find,
          CACHE_TTL, List.filter])

theorem find?_filter_sweep_none {κ : Type} [DecidableEq κ] (c : TileCache κ) (k : κ)
    (q : κ × String × ℚ → Bool) :
    ((cache_erase c k).filter q).find? (fun e => decide (e.1 = k)) = none := by
  rw [List.find?_eq_none]
  intro e he
  have h := List.of_mem_filter (List.mem_of_mem_filter he)
  simp only [decide_eq_true_eq] at h
  simp [h]

theorem cache_find_set {κ : Type} [DecidableEq κ] (c : TileCache κ) (now : ℚ) (k : κ)
    (url : String) : cache_find (set_cached c now k url) k = some (url, now) := by
  unfold set_cached cache_find
  rw [List.filter_append, List.find?_append, find?_filter_sweep_none]
  have hpred : decide (¬ now - ((k, (url, now)) : κ × String × ℚ).2.2 > CACHE_TTL)
      = true := by
    simp only [decide_eq_true_eq]
    norm_num [CACHE_TTL]
  rw [List.filter_cons, if_pos hpred, List.filter_nil]
  rw [List.find?_cons_of_pos _ (by simp)]
  rfl

/-- C8 counterexample: for the empty-string result, store then fresh
lookup does return the stored value at the cache layer, but the handler
treats the hit as falsy (`if cached:`), marks the response uncached and
re-invokes the remote collaborator — the claim fails for r = "". -/
theorem c8_counterexample :
    (get_cached
        (set_cached ([] : TileCache CacheKeyT) 0
          (cache_key_embeddings "2023" ["A01", "A16", "A09"] (-(3/10)) (3/10)) "") 0
        (cache_key_embeddings "2023" ["A01", "A16", "A09"] (-(3/10)) (3/10))).1 =
      some "" ∧
    (tiles_embeddings
        (set_cached ([] : TileCache CacheKeyT) 0
          (cache_key_embeddings "2023" ["A01", "A16", "A09"] (-(3/10)) (3/10)) "") 0
        "2023" ["A01", "A16", "A09"] (-(3/10)) (3/10) (.ok "fresh")).remoteInvoked =
      true ∧
    (tiles_embeddings
        (set_cached ([] : TileCache CacheKeyT) 0
          (cache_key_embeddings "2023" ["A01", "A16", "A09"] (-(3/10)) (3/10)) "") 0
        "2023" ["A01", "A16", "A09"] (-(3/10)) (3/10) (.ok "fresh")).resp =
      .ok "fresh" false := by
  have hg : get_cached
      (set_cached ([] : TileCache CacheKeyT) 0
        (cache_key_embeddings "2023" ["A01", "A16", "A09"] (-(3/10)) (3/10)) "") 0
      (cache_key_embeddings "2023" ["A01", "A16", "A09"] (-(3/10)) (3/10)) =
      (some "",
        set_cached ([] : TileCache CacheKeyT) 0
          (cache_key_embeddings "2023" ["A01", "A16", "A09"] (-(3/10)) (3/10)) "") := by
    unfold get_cached
    rw [cache_find_set]
    dsimp only
    rw [if_pos (by norm_num [CACHE_TTL])]
  have hie : "".isEmpty = true := rfl
  refine ⟨by rw [hg], ?_, ?_⟩ <;>
    simp [tiles_embeddings, cachedOrRemote, hg, missPath, hie]

/-- C8 (amended): for every key and every non-empty result r, store
followed by a lookup strictly within the TTL returns exactly r, and the
handler serves the repeated request from the cache — response marked
cached, remote collaborator not invoked, cache unchanged. -/
theorem c8_cache_fidelity (c : TileCache CacheKeyT) (t t₂ : ℚ) (year : String)
    (bands : List String) (vmin vmax : ℚ) (r : String) (remote : Remote)
    (hb : bands.length = 3) (hr : r.isEmpty = false) (hfresh : t₂ - t < CACHE_TTL) :
    (get_cached (set_cached c t (cache_key_embeddings year bands vmin vmax) r) t₂
        (cache_key_embeddings year bands vmin vmax)).1 = some r ∧
    tiles_embeddings (set_cached c t (cache_key_embeddings year bands vmin vmax) r) t₂
        year bands vmin vmax remote =
      ⟨.ok r true, false,
        set_cached c t (cache_key_embeddings year bands vmin vmax) r⟩ := by
  have hg : get_cached (set_cached c t (cache_key_embeddings year bands vmin vmax) r) t₂
      (cache_key_embeddings year bands vmin vmax) =
      (some r, set_cached c t (cache_key_embeddings year bands vmin vmax) r) := by
    unfold get_cached
    rw [cache_find_set]
    dsimp only
    rw [if_pos hfresh]
  refine ⟨by rw [hg], ?_⟩
  simp [tiles_embeddings, hb, cachedOrRemote, hg, hr]

/-- C8 witness: a URL stored at clock 0 under the embeddings key is
returned unchanged by a lookup at clock 1 and served as a cached
response without a remote call. -/
theorem c8_cache_fidelity_witness :
    (get_cached
        (set_cached ([] : TileCache CacheKeyT) 0
          (cache_key_embeddings "2023" ["A01", "A16", "A09"] (-(3/10)) (3/10)) "u") 1
        (cache_key_embeddings "2023" ["A01", "A16", "A09"] (-(3/10)) (3/10))).1 =
      some "u" ∧
    tiles_embeddings
        (set_cached ([] : TileCache CacheKeyT) 0
          (cache_key_embeddings "2023" ["A01", "A16", "A09"] (-(3/10)) (3/10)) "u") 1
        "2023" ["A01", "A16", "A09"] (-(3/10)) (3/10) (.ok "x") =
      ⟨.ok "u" true, false,
        set_cached ([] : TileCache CacheKeyT) 0
          (cache_key_embeddings "2023" ["A01", "A16", "A09"] (-(3/10)) (3/10)) "u"⟩ :=
  c8_cache_fidelity [] 0 1 "2023" ["A01", "A16", "A09"] (-(3/10)) (3/10) "u" (.ok "x")
    (by simp) rfl (by norm_num [CACHE_TTL])

theorem varVal_nonneg (v : List ℚ) : 0 ≤ varVal v := by
  unfold varVal
  apply div_nonneg
  · apply List.sum_nonneg
    intro x hx
    obtain ⟨y, _, rfl⟩ := List.mem_map.1 hx
    positivity
  · positivity

theorem std_lt_iff (v : List ℚ) (c : ℚ) (hc : 0 < c) :
    (std_val v < (c : ℝ)) ↔ stdLtB v c = true := by
  unfold std_val stdLtB
  rw [Real.sqrt_lt' (by exact_mod_cast hc), decide_eq_true_eq]
  constructor
  · intro h
    have h2 : ((varVal v : ℝ)) < ((c ^ 2 : ℚ) : ℝ) := by push_cast; exact h
    exact_mod_cast h2
  · intro h
    have h2 : ((varVal v : ℝ)) < ((c ^ 2 : ℚ) : ℝ) := by exact_mod_cast h
    push_cast at h2
    exact h2

theorem sort_cons_top (w : Category) (l : List Category)
    (hb : ∀ x ∈ l, x.confidence ≤ w.confidence) :
    List.insertionSort (fun a b => b.confidence ≤ a.confidence) (w :: l) =
      w :: List.insertionSort (fun a b => b.confidence ≤ a.confidence) l := by
  show List.orderedInsert _ w (List.insertionSort _ l) = _
  cases hs : List.insertionSort (fun a b => b.confidence ≤ a.confidence) l with
  | nil => simp [List.orderedInsert]
  | cons b t =>
      have hbl : b ∈ l := by
        have hmem : b ∈ List.insertionSort (fun a b => b.confidence ≤ a.confidence) l := by
          rw [hs]
          exact List.mem_cons_self _ _
        exact (List.mem_insertionSort _).1 hmem
      simp [List.orderedInsert, hb b hbl]

theorem meanVal_zeroEmbedding : meanVal zeroEmbedding = 0 := by
  simp [meanVal, zeroEmbedding, List.sum_replicate]

theorem varVal_zeroEmbedding : varVal zeroEmbedding = 0 := by
  unfold varVal
  rw [meanVal_zeroEmbedding]
  simp [zeroEmbedding, List.map_replicate, List.sum_replicate]

theorem std_val_zeroEmbedding : std_val zeroEmbedding = 0 := by
  unfold std_val
  rw [varVal_zeroEmbedding]
  simp [Real.sqrt_zero]

/-- C9: every 64-component embedding vector whose population standard
deviation is below the water threshold 0.05 is classified with
Water/Ocean as the top label; on the all-zero vector the reported stats
have mean 0 and std 0, the water rule fires, and the fallback
Mixed/Unknown label neither replaces nor joins it (the fallback appears
only when no rule fires). -/
theorem rest_conf_le (v : List ℚ) :
    ∀ x ∈ ((if 1/10 < v.getD 0 0 ∧ 40 < (v.filter (fun x => decide (0 < x))).length
          then [(⟨"Vegetation/Forest", 6/10⟩ : Category)] else []) ++
        ((if meanVal v < -(5/100) then [(⟨"Urban/Built-up", 5/10⟩ : Category)] else []) ++
        ((if stdGtB v (15/100) ∧ 0 < v.getD 1 0 then [(⟨"Cropland", 5/10⟩ : Category)] else []) ++
        (if 0 < meanVal v ∧ stdLtB v (1/10) then [(⟨"Desert/Barren", 4/10⟩ : Category)] else [])))),
      x.confidence ≤ (⟨"Water/Ocean", 7/10⟩ : Category).confidence := by
  intro x hx
  simp only [List.mem_append] at hx
  rcases hx with h | h | h | h <;> split at h <;>
    first
      | (simp only [List.mem_singleton] at h; subst h; norm_num)
      | simp at h

theorem classify_water_top (v : List ℚ) (hw : stdLtB v (5/100) = true) :
    (classify_embedding v).type = "Water/Ocean" := by
  simp only [classify_embedding, hw, eq_self_iff_true, if_true, List.singleton_append,
    List.cons_append, List.append_assoc, List.nil_append]
  rw [if_neg (by simp)]
  rw [sort_cons_top _ _ (rest_conf_le v)]
  rfl

theorem stdLtB_zero : stdLtB zeroEmbedding (5/100) = true := by
  rw [stdLtB, varVal_zeroEmbedding, decide_eq_true_eq]
  norm_num

theorem stdGtB_zero : stdGtB zeroEmbedding (15/100) = false := by
  rw [stdGtB, varVal_zeroEmbedding, decide_eq_false_iff_not]
  norm_num

theorem classify_zero_cats :
    (classify_embedding zeroEmbedding).type = "Water/Ocean" ∧
    (classify_embedding zeroEmbedding).alternatives = [] := by
  have ha0 : zeroEmbedding.getD 0 0 = 0 := rfl
  have hif1 : ¬(1/10 < zeroEmbedding.getD 0 0 ∧
      40 < (zeroEmbedding.filter (fun x => decide (0 < x))).length) := by
    rw [ha0]
    rintro ⟨h, -⟩
    norm_num at h
  have hif2 : ¬(meanVal zeroEmbedding < -(5/100)) := by
    rw [meanVal_zeroEmbedding]
    norm_num
  have hif3 : ¬(stdGtB zeroEmbedding (15/100) = true ∧ 0 < zeroEmbedding.getD 1 0) := by
    rw [stdGtB_zero]
    rintro ⟨h, -⟩
    exact absurd h (by simp)
  have hif4 : ¬(0 < meanVal zeroEmbedding ∧ stdLtB zeroEmbedding (1/10) = true) := by
    rw [meanVal_zeroEmbedding]
    rintro ⟨h, -⟩
    norm_num at h
  constructor <;>
  · simp only [classify_embedding, stdLtB_zero, eq_self_iff_true, if_true,
      if_neg hif1, if_neg hif2, if_neg hif3, if_neg hif4, List.append_nil]
    rw [if_neg (by simp)]
    rfl

/-- C9: every 64-component embedding vector whose population standard
deviation is below the water threshold 0.05 is classified with
Water/Ocean as the top label; on the all-zero vector the reported stats
have mean 0 and std 0, the water rule fires, and the fallback
Mixed/Unknown label neither replaces nor joins it (the fallback appears
only when no rule fires). -/
theorem c9_classifier_water (v : List ℚ) (hlen : v.length = 64)
    (hstd : std_val v < 5/100) :
    (classify_embedding v).type = "Water/Ocean" ∧
    (classify_embedding zeroEmbedding).type = "Water/Ocean" ∧
    (classify_embedding zeroEmbedding).stats.mean = 0 ∧
    stat_std zeroEmbedding = 0 ∧
    (classify_embedding zeroEmbedding).alternatives = [] := by
  have hw : stdLtB v (5/100) = true := by
    rw [← std_lt_iff v (5/100) (by norm_num)]
    convert hstd using 2
    norm_num
  refine ⟨classify_water_top v hw, classify_zero_cats.1, ?_, ?_, classify_zero_cats.2⟩
  · simp only [classify_embedding]
    rw [meanVal_zeroEmbedding]
    norm_num [pyRound, roundHalfEven]
  · unfold stat_std
    rw [std_val_zeroEmbedding]
    norm_num [roundHalfEvenR]

/-- C9 witness: the all-zero vector has 64 components and standard
deviation 0 below the threshold; the classifier answers Water/Ocean with
clean stats and no alternatives. -/
theorem c9_classifier_water_witness :
    (classify_embedding zeroEmbedding).type = "Water/Ocean" ∧
    (classify_embedding zeroEmbedding).type = "Water/Ocean" ∧
    (classify_embedding zeroEmbedding).stats.mean = 0 ∧
    stat_std zeroEmbedding = 0 ∧
    (classify_embedding zeroEmbedding).alternatives = [] :=
  c9_classifier_water zeroEmbedding (by simp [zeroEmbedding]) (by
    rw [std_val_zeroEmbedding]
    norm_num)

theorem mem_required_tiles (fs : List Candidate) (t : String) :
    t ∈ required_tiles fs ↔
      ∃ f ∈ fs, f.mgrsTile = some t ∧ truthyTile f.mgrsTile = true := by
  unfold required_tiles observedTiles
  rw [List.mem_insertionSort, List.mem_dedup, List.mem_filterMap]
  constructor
  · rintro ⟨f, hf, hsome⟩
    by_cases ht : truthyTile f.mgrsTile = true
    · rw [if_pos ht] at hsome
      exact ⟨f, hf, hsome, ht⟩
    · rw [if_neg ht] at hsome
      simp at hsome
  · rintro ⟨f, hf, hsome, ht⟩
    exact ⟨f, hf, by rw [if_pos ht]; exact hsome⟩

theorem mem_tilesOn (fs : List Candidate) (d t : String) :
    t ∈ tilesOn fs d ↔
      ∃ f ∈ fs, f.date = d ∧ f.mgrsTile = some t ∧ truthyTile f.mgrsTile = true := by
  unfold tilesOn imagesOn
  rw [List.mem_filterMap]
  constructor
  · rintro ⟨i, hi, hsome⟩
    obtain ⟨f, hf, rfl⟩ := List.mem_map.1 hi
    have hfd := List.mem_filter.1 hf
    by_cases ht : truthyTile (toImg f).tileId = true
    · rw [if_pos ht] at hsome
      exact ⟨f, hfd.1, by simpa using hfd.2, hsome, ht⟩
    · rw [if_neg ht] at hsome
      simp at hsome
  · rintro ⟨f, hf, hd, hsome, ht⟩
    refine ⟨toImg f, List.mem_map_of_mem _ (List.mem_filter.2 ⟨hf, by simpa using hd⟩), ?_⟩
    have ht2 : truthyTile (toImg f).tileId = true := ht
    rw [if_pos ht2]
    exact hsome

theorem supersetB_iff (req tiles : List String) :
    supersetB req tiles = true ↔ ∀ t ∈ req, t ∈ tiles := by
  unfold supersetB
  rw [List.all_eq_true]
  constructor
  · intro h t ht
    exact List.elem_iff.1 (h t ht)
  · intro h t ht
    exact List.elem_iff.2 (h t ht)

theorem mem_datesOf (fs : List Candidate) (d : String) :
    d ∈ datesOf fs ↔ ∃ f ∈ fs, f.date = d := by
  unfold datesOf
  rw [List.mem_dedup, List.mem_map]

theorem mem_complete_dates_list (fs : List Candidate) (d : String) :
    d ∈ complete_dates_list fs ↔ d ∈ datesOf fs ∧ isCompleteOn fs d = true := by
  unfold complete_dates_list
  simp [List.mem_filter, List.mem_insertionSort]

theorem date_of_superset (fs : List Candidate) (d : String)
    (hobs : required_tiles fs ≠ [])
    (hsup : supersetB (required_tiles fs) (tilesOn fs d) = true) :
    d ∈ datesOf fs := by
  obtain ⟨t, ht⟩ := List.exists_mem_of_ne_nil _ hobs
  have hmem := (supersetB_iff _ _).1 hsup t ht
  obtain ⟨f, hf, hd, -, -⟩ := (mem_tilesOn fs d t).1 hmem
  exact (mem_datesOf fs d).2 ⟨f, hf, hd⟩

theorem date_entry_date (fs : List Candidate) (d : String) :
    (date_entry fs d).date = d := rfl

theorem required_ne_nil_filtered (fs : List Candidate)
    (hobs : required_tiles fs ≠ []) : fs.isEmpty = false := by
  obtain ⟨t, ht⟩ := List.exists_mem_of_ne_nil _ hobs
  obtain ⟨f, hf, -, -⟩ := (mem_required_tiles fs t).1 ht
  cases fs with
  | nil => simp at hf
  | cons a l => rfl

theorem synth_filtered : cloudFiltered synthCands 30 = synthCands := by
  unfold cloudFiltered synthCands
  norm_num [List.filter_cons, decide_eq_true_eq]

theorem synth_observed : observedTiles synthCands = ["B", "A"] := by decide

theorem synth_required : required_tiles synthCands = ["A", "B"] := by
  unfold required_tiles
  rw [synth_observed]
  simp [List.insertionSort, List.orderedInsert]
  try decide

theorem synth_dates : datesOf synthCands = ["2023-01-01", "2023-01-02"] := by decide

theorem synth_complete1 : isCompleteOn synthCands "2023-01-01" = true := by
  unfold isCompleteOn
  rw [synth_required]
  decide

theorem synth_complete2 : isCompleteOn synthCands "2023-01-02" = false := by
  unfold isCompleteOn
  rw [synth_required]
  decide

theorem synth_cdl : complete_dates_list synthCands = ["2023-01-01"] := by
  unfold complete_dates_list
  rw [synth_dates]
  have hs : List.insertionSort (· ≤ ·) ["2023-01-01", "2023-01-02"] =
      ["2023-01-01", "2023-01-02"] := by
    simp [List.insertionSort, List.orderedInsert]
    try decide
  rw [hs]
  simp [List.filter_cons, synth_complete1, synth_complete2]

theorem synth_images1 : imagesOn synthCands "2023-01-01" =
    [⟨"ia1", some "A", 5⟩, ⟨"ib1", some "B", 10⟩] := by
  unfold imagesOn toImg synthCands
  norm_num [List.filter_cons, decide_eq_true_eq, pyRound, roundHalfEven]
  all_goals decide

theorem synth_best1 : best_per_tile [⟨"ia1", some "A", (5 : ℚ)⟩, ⟨"ib1", some "B", 10⟩] =
    [("A", ⟨"ia1", some "A", 5⟩), ("B", ⟨"ib1", some "B", 10⟩)] := by decide

theorem synth_entry1 : date_entry synthCands "2023-01-01" =
    ⟨"2023-01-01", 15/2, [⟨"A", "ia1", 5⟩, ⟨"B", "ib1", 10⟩]⟩ := by
  simp only [date_entry]
  rw [synth_images1, synth_best1]
  have hs : List.insertionSort (fun a b : String × Img => a.1 ≤ b.1)
      [("A", ⟨"ia1", some "A", 5⟩), ("B", ⟨"ib1", some "B", 10⟩)] =
      [("A", ⟨"ia1", some "A", 5⟩), ("B", ⟨"ib1", some "B", 10⟩)] := by
    simp [List.insertionSort, List.orderedInsert]
    try decide
  rw [hs]
  norm_num [pyRound, roundHalfEven]

theorem synth_coverage : images_coverage synthCands 30 50 =
    .ok ⟨["A", "B"], 1,
      [⟨"2023-01-01", 15/2, [⟨"A", "ia1", 5⟩, ⟨"B", "ib1", 10⟩]⟩], none⟩ := by
  simp only [images_coverage]
  rw [synth_filtered, if_neg (by decide), synth_cdl]
  simp only [List.map_cons, List.map_nil]
  rw [synth_entry1, synth_required]
  rfl

theorem limit_filtered : cloudFiltered limitCands 30 = limitCands := by
  unfold cloudFiltered limitCands
  norm_num [List.filter_cons, decide_eq_true_eq]

theorem limit_required : required_tiles limitCands = ["A"] := by
  unfold required_tiles
  have h : observedTiles limitCands = ["A"] := by decide
  rw [h]
  rfl

theorem limit_cdl : complete_dates_list limitCands = ["2023-01-01", "2023-01-02"] := by
  unfold complete_dates_list
  have hd : datesOf limitCands = ["2023-01-01", "2023-01-02"] := by decide
  rw [hd]
  have hs : List.insertionSort (· ≤ ·) ["2023-01-01", "2023-01-02"] =
      ["2023-01-01", "2023-01-02"] := by
    simp [List.insertionSort, List.orderedInsert]
    try decide
  rw [hs]
  have h1 : isCompleteOn limitCands "2023-01-01" = true := by
    unfold isCompleteOn
    rw [limit_required]
    decide
  have h2 : isCompleteOn limitCands "2023-01-02" = true := by
    unfold isCompleteOn
    rw [limit_required]
    decide
  simp [List.filter_cons, h1, h2]

theorem limit_entry1 : date_entry limitCands "2023-01-01" =
    ⟨"2023-01-01", 5, [⟨"A", "i1", 5⟩]⟩ := by
  simp only [date_entry]
  have him : imagesOn limitCands "2023-01-01" = [⟨"i1", some "A", 5⟩] := by
    unfold imagesOn toImg limitCands
    norm_num [List.filter_cons, decide_eq_true_eq, pyRound, roundHalfEven]
    all_goals decide
  rw [him]
  have hb : best_per_tile [(⟨"i1", some "A", (5 : ℚ)⟩ : Img)] =
      [("A", ⟨"i1", some "A", 5⟩)] := by decide
  rw [hb]
  norm_num [pyRound, roundHalfEven, List.insertionSort, List.orderedInsert]

/-- C1 counterexample: with the caller-supplied limit 1 and two complete
dates on the single required tile A, the date 2023-01-02 satisfies the
superset condition yet is absent from the returned dates — the claimed
iff fails as soon as the limit truncates. -/
theorem c1_counterexample :
    supersetB (required_tiles (cloudFiltered limitCands 30))
      (tilesOn (cloudFiltered limitCands 30) "2023-01-02") = true ∧
    images_coverage limitCands 30 1 =
      .ok ⟨["A"], 1, [⟨"2023-01-01", 5, [⟨"A", "i1", 5⟩]⟩], none⟩ := by
  constructor
  · rw [limit_filtered, limit_required]
    decide
  · simp only [images_coverage]
    rw [limit_filtered, if_neg (by decide), limit_cdl]
    simp only [List.map_cons, List.map_nil]
    rw [limit_entry1, limit_required]
    rfl

/-- C1 (amended): for a coverage request with at least one observed MGRS
tile among the cloud-filtered candidates (the handler divides by the
per-date tile count, so some tile must be observed) and a limit that
does not truncate, requiredTiles is exactly the set of distinct truthy
MGRS tile identifiers of the cloud-filtered candidate set, a calendar
date appears in the returned dates iff the tile identifiers observed on
it form a superset of requiredTiles, and on the synthetic instance
(tiles A and B, 2023-01-01 complete, 2023-01-02 only A) the resolver
reports exactly 2023-01-01 with requiredTiles [A, B]. -/
theorem c1_coverage_required_and_complete (cands : List Candidate) (maxCloud : ℚ)
    (limit : ℕ)
    (hobs : required_tiles (cloudFiltered cands maxCloud) ≠ [])
    (hlim : (complete_dates_list (cloudFiltered cands maxCloud)).length ≤ limit) :
    (∀ t, t ∈ required_tiles (cloudFiltered cands maxCloud) ↔
        ∃ f ∈ cloudFiltered cands maxCloud, f.mgrsTile = some t ∧
          truthyTile f.mgrsTile = true) ∧
    (∃ ok, images_coverage cands maxCloud limit = .ok ok ∧
      ok.requiredTiles = required_tiles (cloudFiltered cands maxCloud) ∧
      ok.message = none ∧
      (∀ d, (∃ e ∈ ok.dates, e.date = d) ↔
        supersetB (required_tiles (cloudFiltered cands maxCloud))
          (tilesOn (cloudFiltered cands maxCloud) d) = true)) ∧
    images_coverage synthCands 30 50 =
      .ok ⟨["A", "B"], 1,
        [⟨"2023-01-01", 15/2, [⟨"A", "ia1", 5⟩, ⟨"B", "ib1", 10⟩]⟩], none⟩ := by
  refine ⟨fun t => mem_required_tiles _ t, ?_, synth_coverage⟩
  have hne : (cloudFiltered cands maxCloud).isEmpty = false :=
    required_ne_nil_filtered _ hobs
  have htake : ((complete_dates_list (cloudFiltered cands maxCloud)).map
      (date_entry (cloudFiltered cands maxCloud))).take limit =
      (complete_dates_list (cloudFiltered cands maxCloud)).map
        (date_entry (cloudFiltered cands maxCloud)) := by
    apply List.take_of_length_le
    rw [List.length_map]
    exact hlim
  have heq : images_coverage cands maxCloud limit =
      .ok ⟨required_tiles (cloudFiltered cands maxCloud),
        ((complete_dates_list (cloudFiltered cands maxCloud)).map
          (date_entry (cloudFiltered cands maxCloud))).length,
        (complete_dates_list (cloudFiltered cands maxCloud)).map
          (date_entry (cloudFiltered cands maxCloud)), none⟩ := by
    simp only [images_coverage]
    rw [if_neg (by rw [hne]; exact Bool.false_ne_true), htake]
  refine ⟨_, heq, rfl, rfl, ?_⟩
  intro d
  constructor
  · rintro ⟨e, he, rfl⟩
    simp only at he
    obtain ⟨d', hd', rfl⟩ := List.mem_map.1 he
    rw [date_entry_date]
    exact ((mem_complete_dates_list _ _).1 hd').2
  · intro hsup
    have hd : d ∈ datesOf (cloudFiltered cands maxCloud) :=
      date_of_superset _ _ hobs hsup
    have hmem : d ∈ complete_dates_list (cloudFiltered cands maxCloud) :=
      (mem_complete_dates_list _ _).2 ⟨hd, hsup⟩
    exact ⟨date_entry _ d, List.mem_map_of_mem _ hmem, date_entry_date _ _⟩

/-- C1 witness: the amended theorem applied to the synthetic instance
(whose single observed-tile list is nonempty and whose one complete date
fits the limit 50). -/
theorem c1_coverage_witness :
    images_coverage synthCands 30 50 =
      .ok ⟨["A", "B"], 1,
        [⟨"2023-01-01", 15/2, [⟨"A", "ia1", 5⟩, ⟨"B", "ib1", 10⟩]⟩], none⟩ :=
  (c1_coverage_required_and_complete synthCands 30 50
    (by rw [synth_filtered, synth_required]; simp)
    (by rw [synth_filtered, synth_cdl]; simp)).2.2

theorem foldl_pickMinOpt_some (l : List Img) : ∀ b : Img,
    l.foldl pickMinOpt (some b) = some (l.foldl pickLower b) := by
  induction l with
  | nil => intro b; rfl
  | cons a as ih =>
      intro b
      rw [List.foldl_cons, List.foldl_cons]
      exact ih _

theorem foldl_pickMinOpt_none (l : List Img) :
    l.foldl pickMinOpt none = selectBest l := by
  cases l with
  | nil => rfl
  | cons i is =>
      rw [List.foldl_cons]
      exact foldl_pickMinOpt_some is i

theorem foldl_pickLower_split (l : List Img) : ∀ b : Img,
    ∃ l₁ l₂, b :: l = l₁ ++ (l.foldl pickLower b) :: l₂ ∧
      (∀ j ∈ l₁, (l.foldl pickLower b).cloudCover < j.cloudCover) ∧
      (∀ j ∈ l₂, (l.foldl pickLower b).cloudCover ≤ j.cloudCover) := by
  induction l with
  | nil =>
      intro b
      exact ⟨[], [], rfl, by simp, by simp⟩
  | cons a as ih =>
      intro b
      rw [List.foldl_cons]
      by_cases h : a.cloudCover < b.cloudCover
      · have hp : pickLower b a = a := if_pos h
        rw [hp]
        obtain ⟨l₁, l₂, heq, h₁, h₂⟩ := ih a
        have hra : (as.foldl pickLower a).cloudCover ≤ a.cloudCover := by
          rcases l₁ with _ | ⟨x, l₁x⟩
          · have hhead : a = as.foldl pickLower a := by
              have h3 := heq
              simp only [List.nil_append, List.cons.injEq] at h3
              exact h3.1
            rw [← hhead]
          · have hx : x = a := by
              have h3 := heq
              simp only [List.cons_append, List.cons.injEq] at h3
              exact h3.1.symm
            exact le_of_lt (hx ▸ h₁ x (List.mem_cons_self _ _))
        refine ⟨b :: l₁, l₂, ?_, ?_, h₂⟩
        · rw [List.cons_append, ← heq]
        · intro j hj
          rcases List.mem_cons.1 hj with rfl | hj2
          · exact lt_of_le_of_lt hra h
          · exact h₁ j hj2
      · have hp : pickLower b a = b := if_neg h
        rw [hp]
        obtain ⟨l₁, l₂, heq, h₁, h₂⟩ := ih b
        have hba : b.cloudCover ≤ a.cloudCover := not_lt.1 h
        rcases l₁ with _ | ⟨x, l₁x⟩
        · have h3 := heq
          simp only [List.nil_append, List.cons.injEq] at h3
          refine ⟨[], a :: as, ?_, by simp, ?_⟩
          · rw [List.nil_append, ← h3.1]
          · intro j hj
            rcases List.mem_cons.1 hj with rfl | hj2
            · rw [← h3.1]; exact hba
            · rw [← h3.1]
              rw [← h3.1] at h₂
              exact h₂ j (h3.2 ▸ hj2)
        · have h3 := heq
          simp only [List.cons_append, List.cons.injEq] at h3
          have hx : x = b := h3.1.symm
          have hrb : (as.foldl pickLower b).cloudCover < b.cloudCover := by
            have h4 := h₁ x (List.mem_cons_self _ _)
            rwa [hx] at h4
          refine ⟨b :: a :: l₁x, l₂, ?_, ?_, h₂⟩
          · rw [List.cons_append, List.cons_append, ← h3.2]
          · intro j hj
            rcases List.mem_cons.1 hj with rfl | hj2
            · exact hrb
            rcases List.mem_cons.1 hj2 with rfl | hj3
            · exact lt_of_lt_of_le hrb hba
            · exact h₁ j (List.mem_cons_of_mem _ hj3)

theorem selectBest_split (l : List Img) (i : Img) (h : selectBest l = some i) :
    ∃ l₁ l₂, l = l₁ ++ i :: l₂ ∧
      (∀ j ∈ l₁, i.cloudCover < j.cloudCover) ∧
      (∀ j ∈ l₂, i.cloudCover ≤ j.cloudCover) := by
  cases l with
  | nil => simp [selectBest] at h
  | cons b bs =>
      have hi : i = bs.foldl pickLower b := by
        simp only [selectBest] at h
        exact (Option.some.inj h).symm
      obtain ⟨l₁, l₂, heq, h₁, h₂⟩ := foldl_pickLower_split bs b
      exact ⟨l₁, l₂, by rw [hi, ← heq], by rw [hi]; exact h₁, by rw [hi]; exact h₂⟩

theorem find?_filter_ne_key {α : Type} (l : List (String × α)) (s t : String)
    (hst : s ≠ t) :
    ((l.filter (fun e => decide (e.1 ≠ s))).find? (fun e => decide (e.1 = t))) =
      l.find? (fun e => decide (e.1 = t)) := by
  induction l with
  | nil => rfl
  | cons a l ih =>
      rw [List.filter_cons]
      by_cases hat : a.1 = t
      · have has : (decide (a.1 ≠ s)) = true := by
          rw [decide_eq_true_eq, hat]
          exact fun he => hst he.symm
        rw [if_pos has, List.find?_cons_of_pos _ (by simp [hat]),
          List.find?_cons_of_pos _ (by simp [hat])]
      · by_cases has : a.1 = s
        · rw [if_neg (by simp [has]), ih, List.find?_cons_of_neg _ (by simp [hat])]
        · rw [if_pos (by simp [has])]
          rw [List.find?_cons_of_neg _ (by simp [hat]), ih]
          rw [List.find?_cons_of_neg _ (by simp [hat])]

theorem find?_filter_self_none {α : Type} (l : List (String × α)) (t : String) :
    (l.filter (fun e => decide (e.1 ≠ t))).find? (fun e => decide (e.1 = t)) = none := by
  rw [List.find?_eq_none]
  intro e he
  have h := List.of_mem_filter he
  simp only [decide_eq_true_eq] at h
  simp [h]

theorem sameTile_cons (i : Img) (is : List Img) (t : String) :
    sameTile (i :: is) t =
      if i.tileId = some t then i :: sameTile is t else sameTile is t := by
  unfold sameTile
  rw [List.filter_cons]
  by_cases h : i.tileId = some t
  · rw [if_pos (by simp [h]), if_pos h]
  · rw [if_neg (by simp [h]), if_neg h]

theorem best_find (imgs : List Img) : ∀ (acc : List (String × Img)) (t : String),
    t.isEmpty = false →
    (((imgs.foldl updBest acc).find? (fun e => decide (e.1 = t))).map (fun e => e.2)) =
      (sameTile imgs t).foldl pickMinOpt
        ((acc.find? (fun e => decide (e.1 = t))).map (fun e => e.2)) := by
  induction imgs with
  | nil => intro acc t ht; rfl
  | cons i is ih =>
      intro acc t ht
      rw [List.foldl_cons, sameTile_cons]
      by_cases hit : i.tileId = some t
      · rw [if_pos hit, List.foldl_cons, ih (updBest acc i) t ht]
        have hfind : (((updBest acc i).find? (fun e => decide (e.1 = t))).map
            (fun e => e.2)) =
            pickMinOpt ((acc.find? (fun e => decide (e.1 = t))).map (fun e => e.2)) i := by
          unfold updBest
          rw [hit]
          dsimp only
          rw [if_neg (by rw [ht]; exact Bool.false_ne_true)]
          cases hacc : (acc.find? (fun e => decide (e.1 = t))).map (fun e => e.2) with
          | none =>
              have hacc0 : acc.find? (fun e => decide (e.1 = t)) = none :=
                Option.map_eq_none'.1 hacc
              dsimp only
              rw [List.find?_append, hacc0, List.find?_cons_of_pos _ (by simp)]
              rfl
          | some prev =>
              obtain ⟨e, he, hev⟩ := Option.map_eq_some'.1 hacc
              dsimp only
              by_cases hcc : i.cloudCover < prev.cloudCover
              · rw [if_pos hcc]
                rw [List.find?_append, find?_filter_self_none,
                  List.find?_cons_of_pos _ (by simp)]
                simp [pickMinOpt, pickLower, hcc]
              · rw [if_neg hcc, he]
                simp [pickMinOpt, pickLower, hcc, hev]
        rw [hfind]
      · rw [if_neg hit, ih (updBest acc i) t ht]
        have hfind : (updBest acc i).find? (fun e => decide (e.1 = t)) =
            acc.find? (fun e => decide (e.1 = t)) := by
          unfold updBest
          cases hti : i.tileId with
          | none => rfl
          | some s =>
              dsimp only
              by_cases hse : s.isEmpty
              · rw [if_pos hse]
              · rw [if_neg hse]
                have hst : s ≠ t := fun he => hit (by rw [hti, he])
                have h1 : ([((s : String), i)].find? (fun e => decide (e.1 = t))) =
                    none := by
                  simp [hst]
                cases haccs : (acc.find? (fun e => decide (e.1 = s))).map (fun e => e.2) with
                | none =>
                    dsimp only
                    rw [List.find?_append, h1, Option.or_none]
                | some prev =>
                    dsimp only
                    by_cases hcc : i.cloudCover < prev.cloudCover
                    · rw [if_pos hcc]
                      rw [List.find?_append, find?_filter_ne_key acc s t hst, h1,
                        Option.or_none]
                    · rw [if_neg hcc]
        rw [hfind]

theorem best_per_tile_find (imgs : List Img) (t : String) (ht : t.isEmpty = false) :
    (((best_per_tile imgs).find? (fun e => decide (e.1 = t))).map (fun e => e.2)) =
      selectBest (sameTile imgs t) := by
  unfold best_per_tile
  rw [best_find imgs [] t ht]
  simp only [List.find?_nil, Option.map_none']
  exact foldl_pickMinOpt_none _

theorem mem_map_fst_iff_find? {α : Type} (l : List (String × α)) (t : String) :
    t ∈ l.map Prod.fst ↔ l.find? (fun e => decide (e.1 = t)) ≠ none := by
  rw [List.mem_map, Ne, List.find?_eq_none]
  push_neg
  constructor
  · rintro ⟨e, he, rfl⟩
    exact ⟨e, he, by simp⟩
  · rintro ⟨e, he, hp⟩
    exact ⟨e, he, by simpa using hp⟩

theorem find?_eq_of_mem_nodup {α : Type} (l : List (String × α)) (p : String × α)
    (hmem : p ∈ l) (hnd : (l.map Prod.fst).Nodup) :
    l.find? (fun e => decide (e.1 = p.1)) = some p := by
  induction l with
  | nil => simp at hmem
  | cons a l ih =>
      rcases List.mem_cons.1 hmem with rfl | hmem2
      · rw [List.find?_cons_of_pos _ (by simp)]
      · rw [List.map_cons, List.nodup_cons] at hnd
        have hne : a.1 ≠ p.1 := by
          intro he
          exact hnd.1 (he ▸ List.mem_map_of_mem Prod.fst hmem2)
        rw [List.find?_cons_of_neg _ (by simp [hne])]
        exact ih hmem2 hnd.2

theorem updBest_mem (acc : List (String × Img)) (img : Img) :
    ∀ e ∈ updBest acc img, e ∈ acc ∨ (∃ s, e = (s, img) ∧ img.tileId = some s ∧
      s.isEmpty = false) := by
  intro e he
  unfold updBest at he
  cases hti : img.tileId with
  | none => rw [hti] at he; exact .inl he
  | some s =>
      rw [hti] at he
      dsimp only at he
      by_cases hse : s.isEmpty
      · rw [if_pos hse] at he
        exact .inl he
      · rw [if_neg hse] at he
        cases hf : (acc.find? (fun x => decide (x.1 = s))).map (fun x => x.2) with
        | none =>
            rw [hf] at he
            dsimp only at he
            rcases List.mem_append.1 he with h1 | h1
            · exact .inl h1
            · simp only [List.mem_singleton] at h1
              exact .inr ⟨s, h1, rfl, by simpa using hse⟩
        | some prev =>
            rw [hf] at he
            dsimp only at he
            by_cases hcc : img.cloudCover < prev.cloudCover
            · rw [if_pos hcc] at he
              rcases List.mem_append.1 he with h1 | h1
              · exact .inl (List.mem_of_mem_filter h1)
              · simp only [List.mem_singleton] at h1
                exact .inr ⟨s, h1, rfl, by simpa using hse⟩
            · rw [if_neg hcc] at he
              exact .inl he

theorem best_keys_nonempty (imgs : List Img) : ∀ acc : List (String × Img),
    (∀ e ∈ acc, e.1.isEmpty = false) →
    ∀ e ∈ imgs.foldl updBest acc, e.1.isEmpty = false := by
  induction imgs with
  | nil => intro acc h e he; exact h e he
  | cons i is ih =>
      intro acc h e he
      rw [List.foldl_cons] at he
      refine ih _ ?_ e he
      intro e2 he2
      rcases updBest_mem acc i e2 he2 with h1 | ⟨s, rfl, -, hs⟩
      · exact h e2 h1
      · exact hs

theorem updBest_keys_nodup (acc : List (String × Img)) (img : Img)
    (h : (acc.map Prod.fst).Nodup) : ((updBest acc img).map Prod.fst).Nodup := by
  unfold updBest
  cases hti : img.tileId with
  | none => exact h
  | some s =>
      dsimp only
      by_cases hse : s.isEmpty
      · rw [if_pos hse]
        exact h
      · rw [if_neg hse]
        cases hf : (acc.find? (fun x => decide (x.1 = s))).map (fun x => x.2) with
        | none =>
            dsimp only
            rw [List.map_append]
            rw [List.nodup_append]
            refine ⟨h, by simp, ?_⟩
            intro a ha hb
            simp only [List.map_cons, List.map_nil, List.mem_singleton] at hb
            rw [hb] at ha
            have hfn : acc.find? (fun x => decide (x.1 = s)) = none :=
              Option.map_eq_none'.1 hf
            exact (mem_map_fst_iff_find? acc s).1 ha hfn
        | some prev =>
            dsimp only
            by_cases hcc : img.cloudCover < prev.cloudCover
            · rw [if_pos hcc, List.map_append, List.nodup_append]
              have hsub : ((acc.filter (fun e => decide (e.1 ≠ s))).map Prod.fst).Sublist
                  (acc.map Prod.fst) := (List.filter_sublist acc).map Prod.fst
              refine ⟨h.sublist hsub, by simp, ?_⟩
              intro a ha hb
              simp only [List.map_cons, List.map_nil, List.mem_singleton] at hb
              subst hb
              obtain ⟨e, he, rfl⟩ := List.mem_map.1 ha
              have h2 := List.of_mem_filter he
              simp only [decide_eq_true_eq] at h2
              exact h2 rfl
            · rw [if_neg hcc]
              exact h

theorem best_keys_nodup (imgs : List Img) : ∀ acc : List (String × Img),
    (acc.map Prod.fst).Nodup → ((imgs.foldl updBest acc).map Prod.fst).Nodup := by
  induction imgs with
  | nil => intro acc h; exact h
  | cons i is ih =>
      intro acc h
      rw [List.foldl_cons]
      exact ih _ (updBest_keys_nodup acc i h)

theorem mem_tilesOn_iff_sameTile (fs : List Candidate) (d t : String) :
    t ∈ tilesOn fs d ↔ t.isEmpty = false ∧ sameTile (imagesOn fs d) t ≠ [] := by
  unfold tilesOn
  rw [List.mem_filterMap]
  constructor
  · rintro ⟨i, hi, hsome⟩
    by_cases ht : truthyTile i.tileId = true
    · rw [if_pos ht] at hsome
      have hte : t.isEmpty = false := by
        rw [hsome] at ht
        simpa [truthyTile] using ht
      refine ⟨hte, ?_⟩
      intro hnil
      have hmem : i ∈ sameTile (imagesOn fs d) t := by
        unfold sameTile
        exact List.mem_filter.2 ⟨hi, by simp [hsome]⟩
      rw [hnil] at hmem
      simp at hmem
    · rw [if_neg ht] at hsome
      simp at hsome
  · rintro ⟨hte, hne⟩
    obtain ⟨i, hi⟩ := List.exists_mem_of_ne_nil _ hne
    have h2 := List.mem_filter.1 hi
    have hid : i.tileId = some t := by simpa using h2.2
    refine ⟨i, h2.1, ?_⟩
    rw [if_pos (by rw [hid]; simp [truthyTile, hte])]
    exact hid

theorem best_imgs_of_mem (imgs : List Img) (p : String × Img)
    (hp : p ∈ best_per_tile imgs) :
    p.1.isEmpty = false ∧ selectBest (sameTile imgs p.1) = some p.2 := by
  have hne : p.1.isEmpty = false :=
    best_keys_nonempty imgs [] (by simp) p hp
  refine ⟨hne, ?_⟩
  have hnd : ((best_per_tile imgs).map Prod.fst).Nodup :=
    best_keys_nodup imgs [] (by simp)
  have hf := find?_eq_of_mem_nodup _ p hp hnd
  have hb := best_per_tile_find imgs p.1 hne
  rw [hf] at hb
  simpa using hb.symm

theorem mem_best_keys_iff (fs : List Candidate) (d t : String) :
    t ∈ (best_per_tile (imagesOn fs d)).map Prod.fst ↔ t ∈ tilesOn fs d := by
  rw [mem_map_fst_iff_find?, mem_tilesOn_iff_sameTile]
  constructor
  · intro hne
    cases hfind : (best_per_tile (imagesOn fs d)).find? (fun e => decide (e.1 = t)) with
    | none => exact absurd hfind hne
    | some e =>
        have hmem := List.mem_of_find?_eq_some hfind
        have hkey : e.1 = t := by simpa using List.find?_some hfind
        have hne2 : t.isEmpty = false := hkey ▸ (best_imgs_of_mem _ e hmem).1
        refine ⟨hne2, ?_⟩
        have hsel := (best_imgs_of_mem _ e hmem).2
        rw [hkey] at hsel
        intro hnil
        rw [hnil] at hsel
        simp [selectBest] at hsel
  · rintro ⟨hte, hne⟩
    have hbf := best_per_tile_find (imagesOn fs d) t hte
    intro hfn
    rw [hfn] at hbf
    simp only [Option.map] at hbf
    cases hst : sameTile (imagesOn fs d) t with
    | nil => exact hne hst
    | cons a l =>
        rw [hst] at hbf
        simp [selectBest] at hbf

theorem entry_tiles_eq_required (fs : List Candidate) (d : String)
    (hcomp : isCompleteOn fs d = true) :
    (date_entry fs d).tiles.map TileSel.tileId = required_tiles fs := by
  simp only [date_entry]
  rw [List.map_map]
  have hcompose : (TileSel.tileId ∘ fun p : String × Img =>
      (⟨p.1, p.2.id, p.2.cloudCover⟩ : TileSel)) = Prod.fst := rfl
  rw [hcompose]
  have hnd1 : ((best_per_tile (imagesOn fs d)).map Prod.fst).Nodup :=
    best_keys_nodup _ [] (by simp)
  have hnd2 : (required_tiles fs).Nodup :=
    (List.perm_insertionSort _ _).nodup_iff.2 (List.nodup_dedup _)
  have hmem : ∀ a, a ∈ (best_per_tile (imagesOn fs d)).map Prod.fst ↔
      a ∈ required_tiles fs := by
    intro a
    rw [mem_best_keys_iff]
    constructor
    · intro ha
      obtain ⟨f, hf, hd2, hsome, ht⟩ := (mem_tilesOn fs d a).1 ha
      exact (mem_required_tiles fs a).2 ⟨f, hf, hsome, ht⟩
    · intro ha
      exact (supersetB_iff _ _).1 hcomp a ha
  have hperm : List.Perm ((List.insertionSort (fun a b : String × Img => a.1 ≤ b.1)
      (best_per_tile (imagesOn fs d))).map Prod.fst) (required_tiles fs) :=
    ((List.perm_insertionSort _ _).map _).trans
      ((List.perm_ext_iff_of_nodup hnd1 hnd2).2 hmem)
  have hsort1 : List.Sorted (· ≤ ·)
      ((List.insertionSort (fun a b : String × Img => a.1 ≤ b.1)
        (best_per_tile (imagesOn fs d))).map Prod.fst) :=
    List.pairwise_map.2
      (List.sorted_insertionSort (fun a b : String × Img => a.1 ≤ b.1) _)
  have hsort2 : List.Sorted (· ≤ ·) (required_tiles fs) :=
    List.sorted_insertionSort _ _
  exact List.eq_of_perm_of_sorted hperm hsort1 hsort2

theorem entry_avg (fs : List Candidate) (d : String) :
    (date_entry fs d).avgCloudCover =
      pyRound (((date_entry fs d).tiles.map TileSel.cloudCover).sum /
        ((date_entry fs d).tiles.length : ℚ)) 1 := by
  simp only [date_entry]
  rw [List.map_map]
  have hcompose : (TileSel.cloudCover ∘ fun p : String × Img =>
      (⟨p.1, p.2.id, p.2.cloudCover⟩ : TileSel)) =
      (fun p : String × Img => p.2.cloudCover) := rfl
  rw [hcompose]
  have hperm : List.Perm (List.insertionSort (fun a b : String × Img => a.1 ≤ b.1)
      (best_per_tile (imagesOn fs d))) (best_per_tile (imagesOn fs d)) :=
    List.perm_insertionSort _ _
  rw [List.length_map, (hperm.map (fun p : String × Img => p.2.cloudCover)).sum_eq,
    hperm.length_eq]

theorem entry_selection (fs : List Candidate) (d : String) :
    ∀ sel ∈ (date_entry fs d).tiles, ∃ i l₁ l₂,
      sameTile (imagesOn fs d) sel.tileId = l₁ ++ i :: l₂ ∧
      sel.imageId = i.id ∧ sel.cloudCover = i.cloudCover ∧
      (∀ j ∈ l₁, i.cloudCover < j.cloudCover) ∧
      (∀ j ∈ l₂, i.cloudCover ≤ j.cloudCover) := by
  intro sel hsel
  simp only [date_entry] at hsel
  obtain ⟨p, hp, rfl⟩ := List.mem_map.1 hsel
  have hpb : p ∈ best_per_tile (imagesOn fs d) := (List.mem_insertionSort _).1 hp
  obtain ⟨hne, hsel2⟩ := best_imgs_of_mem _ p hpb
  obtain ⟨l₁, l₂, heq, h₁, h₂⟩ := selectBest_split _ _ hsel2
  exact ⟨p.2, l₁, l₂, heq, rfl, rfl, h₁, h₂⟩

theorem complete_dates_sorted (fs : List Candidate) :
    List.Pairwise (· ≤ ·) (complete_dates_list fs) := by
  unfold complete_dates_list
  exact (List.sorted_insertionSort _ _).sublist (List.filter_sublist _)

/-- C6 (amended): for every coverage request with at least one observed
MGRS tile, each returned complete-date entry selects per required tile
the first-seen candidate attaining the minimal one-decimal-rounded cloud
cover of that tile on that date (strictly lower than every earlier
candidate, no higher than every later one), the entry covers exactly the
required tiles in sorted order, its avgCloudCover is the one-decimal
rounding of the arithmetic mean of the selected (rounded) cloud covers,
and the entries are listed chronologically and truncated to the
caller-supplied limit. -/
theorem c6_complete_date_entries (cands : List Candidate) (maxCloud : ℚ) (limit : ℕ)
    (hobs : required_tiles (cloudFiltered cands maxCloud) ≠ []) :
    (coverageDates (images_coverage cands maxCloud limit)).map DateEntry.date =
      (complete_dates_list (cloudFiltered cands maxCloud)).take limit ∧
    List.Pairwise (· ≤ ·)
      ((coverageDates (images_coverage cands maxCloud limit)).map DateEntry.date) ∧
    coverageRequired (images_coverage cands maxCloud limit) =
      required_tiles (cloudFiltered cands maxCloud) ∧
    ∀ e ∈ coverageDates (images_coverage cands maxCloud limit),
      e.tiles.map TileSel.tileId = required_tiles (cloudFiltered cands maxCloud) ∧
      e.avgCloudCover =
        pyRound ((e.tiles.map TileSel.cloudCover).sum / (e.tiles.length : ℚ)) 1 ∧
      ∀ sel ∈ e.tiles, ∃ i l₁ l₂,
        sameTile (imagesOn (cloudFiltered cands maxCloud) e.date) sel.tileId =
          l₁ ++ i :: l₂ ∧
        sel.imageId = i.id ∧ sel.cloudCover = i.cloudCover ∧
        (∀ j ∈ l₁, i.cloudCover < j.cloudCover) ∧
        (∀ j ∈ l₂, i.cloudCover ≤ j.cloudCover) := by
  have hne : (cloudFiltered cands maxCloud).isEmpty = false :=
    required_ne_nil_filtered _ hobs
  have hcd : coverageDates (images_coverage cands maxCloud limit) =
      ((complete_dates_list (cloudFiltered cands maxCloud)).map
        (date_entry (cloudFiltered cands maxCloud))).take limit := by
    simp only [images_coverage]
    rw [if_neg (by rw [hne]; exact Bool.false_ne_true)]
    rfl
  have hcr : coverageRequired (images_coverage cands maxCloud limit) =
      required_tiles (cloudFiltered cands maxCloud) := by
    simp only [images_coverage]
    rw [if_neg (by rw [hne]; exact Bool.false_ne_true)]
    rfl
  have hdates : (coverageDates (images_coverage cands maxCloud limit)).map
      DateEntry.date =
      (complete_dates_list (cloudFiltered cands maxCloud)).take limit := by
    rw [hcd, List.map_take, List.map_map]
    have hid : (DateEntry.date ∘ date_entry (cloudFiltered cands maxCloud)) = id := by
      funext d
      rfl
    rw [hid, List.map_id]
  refine ⟨hdates, ?_, hcr, ?_⟩
  · rw [hdates]
    exact (complete_dates_sorted _).sublist (List.take_sublist _ _)
  · intro e he
    rw [hcd] at he
    have he2 : e ∈ (complete_dates_list (cloudFiltered cands maxCloud)).map
        (date_entry (cloudFiltered cands maxCloud)) := List.take_subset _ _ he
    obtain ⟨d, hd, rfl⟩ := List.mem_map.1 he2
    have hcomp : isCompleteOn (cloudFiltered cands maxCloud) d = true :=
      ((mem_complete_dates_list _ _).1 hd).2
    refine ⟨entry_tiles_eq_required _ _ hcomp, entry_avg _ _, ?_⟩
    rw [date_entry_date]
    exact entry_selection _ _

theorem avg_filtered : cloudFiltered avgCands 30 = avgCands := by
  unfold cloudFiltered avgCands
  norm_num [List.filter_cons, decide_eq_true_eq]

theorem avg_required : required_tiles avgCands = ["A", "B", "C"] := by
  unfold required_tiles
  have h : observedTiles avgCands = ["A", "B", "C"] := by decide
  rw [h]
  simp [List.insertionSort, List.orderedInsert]
  try decide

theorem avg_cdl : complete_dates_list avgCands = ["2023-01-01"] := by
  unfold complete_dates_list
  have hd : datesOf avgCands = ["2023-01-01"] := by decide
  rw [hd]
  have hs : List.insertionSort (· ≤ ·) ["2023-01-01"] = ["2023-01-01"] := rfl
  rw [hs]
  have h1 : isCompleteOn avgCands "2023-01-01" = true := by
    unfold isCompleteOn
    rw [avg_required]
    decide
  simp [List.filter_cons, h1]

theorem avg_entry1 : date_entry avgCands "2023-01-01" =
    ⟨"2023-01-01", 13/10, [⟨"A", "ia", 1⟩, ⟨"B", "ib", 1⟩, ⟨"C", "ic", 2⟩]⟩ := by
  simp only [date_entry]
  have him : imagesOn avgCands "2023-01-01" =
      [⟨"ia", some "A", 1⟩, ⟨"ib", some "B", 1⟩, ⟨"ic", some "C", 2⟩] := by
    unfold imagesOn toImg avgCands
    norm_num [List.filter_cons, decide_eq_true_eq, pyRound, roundHalfEven]
  rw [him]
  have hb : best_per_tile
      [⟨"ia", some "A", (1 : ℚ)⟩, ⟨"ib", some "B", 1⟩, ⟨"ic", some "C", 2⟩] =
      [("A", ⟨"ia", some "A", 1⟩), ("B", ⟨"ib", some "B", 1⟩),
       ("C", ⟨"ic", some "C", 2⟩)] := by decide
  rw [hb]
  have hs : List.insertionSort (fun a b : String × Img => a.1 ≤ b.1)
      [("A", ⟨"ia", some "A", 1⟩), ("B", ⟨"ib", some "B", 1⟩),
       ("C", ⟨"ic", some "C", 2⟩)] =
      [("A", ⟨"ia", some "A", 1⟩), ("B", ⟨"ib", some "B", 1⟩),
       ("C", ⟨"ic", some "C", 2⟩)] := by
    simp [List.insertionSort, List.orderedInsert]
    try decide
  rw [hs]
  norm_num [pyRound, roundHalfEven]

/-- C6 counterexample: on a complete date with per-tile cloud covers 1, 1
and 2 percent, the reported avgCloudCover is 13/10 — the one-decimal
rounding of the exact mean 4/3 — so avgCloudCover does not equal the
arithmetic mean of the selected cloud fractions as the claim states. -/
theorem c6_counterexample :
    images_coverage avgCands 30 50 =
      .ok ⟨["A", "B", "C"], 1,
        [⟨"2023-01-01", 13/10, [⟨"A", "ia", 1⟩, ⟨"B", "ib", 1⟩, ⟨"C", "ic", 2⟩]⟩],
        none⟩ ∧
    (13/10 : ℚ) ≠ ((1 : ℚ) + 1 + 2) / 3 := by
  constructor
  · simp only [images_coverage]
    rw [avg_filtered, if_neg (by decide), avg_cdl]
    simp only [List.map_cons, List.map_nil]
    rw [avg_entry1, avg_required]
    rfl
  · norm_num

/-- C6 witness: the amended theorem applied to the synthetic two-tile
instance. -/
theorem c6_complete_date_entries_witness :
    (coverageDates (images_coverage synthCands 30 50)).map DateEntry.date =
      (complete_dates_list (cloudFiltered synthCands 30)).take 50 ∧
    coverageRequired (images_coverage synthCands 30 50) =
      required_tiles (cloudFiltered synthCands 30) :=
  ⟨(c6_complete_date_entries synthCands 30 50
      (by rw [synth_filtered, synth_required]; simp)).1,
   (c6_complete_date_entries synthCands 30 50
      (by rw [synth_filtered, synth_required]; simp)).2.2.1⟩
